import Mathlib

/- Verification development for the chromabot command layer
   (`chromabot/commands.py`).  The command handlers are shallowly embedded as
   pure Lean functions over explicit state; the database layer (`db.py`) and
   the messaging platform are modelled as oracle parameters following the
   specification's interface descriptions. -/

namespace Chromabot

/-- Decimal rendering of a natural number, exactly as Python's `"%d" % n`
produces it for a non-negative value. -/
def natToChars (n : Nat) : List Char :=
  if n = 0 then ['0'] else ((Nat.digits 10 n).map Nat.digitChar).reverse

/-- Decimal parse of a digit string, as Python's `int` applied to a `\d+`
match group. -/
def parseDigits (ds : List Char) : Nat :=
  ds.foldl (fun a c => 10 * a + (c.toNat - 48)) 0

/-- Strip a literal prefix from a character list, returning the remainder. -/
def stripPfx : List Char → List Char → Option (List Char)
  | [], s => some s
  | _ :: _, [] => none
  | p :: ps, c :: cs => if c = p then stripPfx ps cs else none

/-- One anchored attempt of the pattern `lit(\d+)close` at the head of `s`,
with Python `re` semantics: the literal, then a greedy non-empty digit run,
then the closing character (backtracking the greedy run cannot help, since any
shorter run is followed by a digit, which the closing literal is not). -/
def tryHere (lit : List Char) (close : Char) (s : List Char) : Option Nat :=
  match stripPfx lit s with
  | none => none
  | some rest =>
    let ds := rest.takeWhile (fun c => c.isDigit)
    match rest.dropWhile (fun c => c.isDigit) with
    | [] => none
    | c :: _ =>
      if ds = [] then none
      else if c = close then some (parseDigits ds) else none

/-- `re.search` of the pattern `lit(\d+)close`: try each start position left to
right, leftmost successful match wins. -/
def scanFor (lit : List Char) (close : Char) : List Char → Option Nat
  | [] => none
  | c :: cs =>
    match tryHere lit close (c :: cs) with
    | some n => some n
    | none => scanFor lit close cs

/-- The literal part of the first reconciliation pattern,
`re.compile(r"\(subskirmish (\d+)\)")`. -/
def subLit : List Char := "(subskirmish ".data

/-- The literal part of the second reconciliation pattern,
`re.compile(r"Skirmish #(\d+)\*")` (the `\*` is the closing bold markup). -/
def skLit : List Char := "Skirmish #".data

/-- The two-regex extraction from `SkirmishCommand.extract_subskirmish`:
search the parent body for `(subskirmish N)` first, then for `Skirmish #N*`,
returning the first group of the first pattern that matches. -/
def extractIdFromBody (body : List Char) : Option Nat :=
  match scanFor subLit ')' body with
  | some n => some n
  | none => scanFor skLit '*' body

/-- A fetched message from the messaging platform, as
`reddit.get_info(thing_id=...)` returns it: fullname, author (absent when the
message was deleted), and rendered body text. -/
structure RMessage where
  name : List Char
  author : Option (List Char)
  body : List Char
deriving DecidableEq, Repr

/-- A row of the `Processed` table: external message id (`id36`) plus the
battle it was recorded against. -/
structure ProcessedM where
  id36 : List Char
  battle : Nat
deriving DecidableEq, Repr

/-- Result of `SkirmishCommand.extract_subskirmish`, instrumented with the
session effects it performs: the returned skirmish id (if any), the
`Processed` table after the call, whether a remote fetch (`get_info`) was
performed, and how many times the session was committed. -/
structure ExtractOut where
  result : Option Nat
  processed : List ProcessedM
  fetched : Bool
  commits : Nat
deriving DecidableEq, Repr

/-- Shallow embedding of `SkirmishCommand.extract_subskirmish` (decorated with
`failable`).  `commentAuthor` is `context.comment.author`, `pid` is
`context.comment.parent_id`, `processed` the current `Processed` table,
`getInfo` the messaging platform's fetch (returning `none` both when the
thing does not exist and when the call fails, in which case the `failable`
decorator turns the raised error into a `None` return with no further
effects), `username` is `context.config.username`, and `battleId` the battle
the reconciliation runs against. -/
def extract_subskirmish (commentAuthor : Option (List Char)) (pid : List Char)
    (processed : List ProcessedM) (getInfo : List Char → Option RMessage)
    (username : List Char) (battleId : Nat) : ExtractOut :=
  if commentAuthor.isNone then
    ⟨none, processed, false, 0⟩
  else if 0 < (processed.filter (fun p => p.id36 = pid)).length then
    ⟨none, processed, false, 0⟩
  else
    match getInfo pid with
    | none => ⟨none, processed, true, 0⟩
    | some parent =>
      match parent.author with
      | none => ⟨none, processed, true, 0⟩
      | some a =>
        if a ≠ username then
          ⟨none, processed ++ [⟨parent.name, battleId⟩], true, 1⟩
        else
          ⟨extractIdFromBody parent.body, processed, true, 0⟩

/-- The infrastructure failures caught at the messaging boundary by the
`failable` decorator: `praw.errors.APIException` and
`requests.exceptions.Timeout`.  Any other exception propagates. -/
inductive Infra
  | apiException
  | timeout
deriving DecidableEq, Repr

/-- Shallow embedding of the `failable` decorator: an outward call either
returns a value or raises one of the two caught infrastructure errors; the
wrapper logs a raised error and converts it into a `None` return. -/
def failable {α : Type} (r : Except Infra α) : Option α :=
  match r with
  | .ok a => some a
  | .error _ => none

/-- A submitted announcement thread, of which the handler reads `.name`. -/
structure SubmissionM where
  name : List Char
deriving DecidableEq, Repr

/-- Shallow embedding of `Context.reply`: the raw `comment.reply` call
wrapped in `failable`. -/
def contextReply (raw : Except Infra Unit) : Option Unit := failable raw

/-- Shallow embedding of `Context.submit`: the raw `reddit.submit` call
wrapped in `failable`. -/
def contextSubmit (raw : Except Infra SubmissionM) : Option SubmissionM := failable raw

/-- Modelled from the spec: a `Region` row as the command layer reads it —
`name`, `srname`, and its rendered `markdown()` link (the rendering lives in
the missing `db.py`, so it is carried as a field). -/
structure RegionM where
  name : List Char
  srname : List Char
  markdown : List Char
deriving DecidableEq, Repr

/-- Shallow embedding of `Command.get_region`: look the token up first by
region name, then by subreddit name (`first()` on a filtered query becomes
`find?`). -/
def get_region (w : List Char) (regions : List RegionM) : Option RegionM :=
  match regions.find? (fun r => decide (r.name = w)) with
  | some r => some r
  | none => regions.find? (fun r => decide (r.srname = w))

/-- Reply sent by `get_region` when the token names no region. -/
def unknownRegionText (w : List Char) : List Char :=
  "I don't know any region or subreddit named '".data ++ w ++ "'".data

/-- Decimal rendering of an integer, as Python's `"%d" % i`. -/
def intToChars (i : Int) : List Char :=
  if i < 0 then '-' :: natToChars i.natAbs else natToChars i.toNat

/-- Modelled from the spec: a pending `MovementOrder` as the move handler
reads it off an `InProgressException` — the rendered `dest.markdown()` and
`arrival_str()`. -/
structure MovingM where
  destMarkdown : List Char
  arrivalStr : List Char
deriving DecidableEq, Repr

/-- Modelled from the spec: an unresolved top-level battle commitment as the
move handler reads it — the rendered `other.get_battle().region.markdown()`. -/
structure MCommit where
  battleRegionMarkdown : List Char
deriving DecidableEq, Repr

/-- Modelled from the spec: the blocking entity carried by
`InProgressException` out of `Player.move`.  The handler distinguishes the
two cases with `hasattr(ipe.other, 'arrival_str')`: a movement order has
that attribute, a battle commitment does not. -/
inductive MoveBlocker
  | order (o : MovingM)
  | commitment (c : MCommit)
deriving DecidableEq, Repr

/-- Modelled from the spec: the typed failures `Player.move` can raise. -/
inductive MoveErr
  | insufficient (requested : Int) (available : Int)
  | nonAdjacent
  | inProgress (other : MoveBlocker)
  | team
deriving DecidableEq, Repr

/-- The player fields `MoveCommand.execute` reads and writes. -/
structure MPlayer where
  loyalists : Int
  defectable : Bool
  regionMarkdown : List Char
deriving DecidableEq, Repr

/-- Modelled from the spec: a created `MovementOrder`, of which the handler
only reads `arrival_str()`. -/
structure OrderM where
  arrivalStr : List Char
deriving DecidableEq, Repr

/-- The parsed state of a `MoveCommand`. -/
structure MoveCmd where
  amount : Int
  whereTok : List Char
deriving DecidableEq, Repr

/-- Shallow embedding of `MoveCommand.__init__`: an absent `amount` token
becomes the sentinel `-1` ("everyone"); `whereTok` is the already-lowercased
`where` token. -/
def MoveCmd.ofTokens (amount : Option Int) (whereTok : List Char) : MoveCmd :=
  { amount := amount.getD (-1), whereTok := whereTok }

def insufficientMoveText (requested available : Int) : List Char :=
  "You cannot move ".data ++ intToChars requested ++
  " of your people - you only have ".data ++ intToChars available

def nonAdjacentMoveText (playerRegion destMarkdown : List Char) : List Char :=
  "Your current region, ".data ++ playerRegion ++ ", is not adjacent to ".data ++
  destMarkdown

/-- Reply rendered when the blocker of a move is a pending movement order. -/
def orderBlockText (o : MovingM) : List Char :=
  "You are already leading your armies to ".data ++ o.destMarkdown ++
  " - you can give further orders upon your arrival at ".data ++ o.arrivalStr

/-- Reply rendered when the blocker of a move is a battle commitment. -/
def battleBlockText (c : MCommit) : List Char :=
  "You have committed your armies to the battle at ".data ++
  c.battleRegionMarkdown ++ " - you must see this through to the bitter end.".data

def teamMoveText (whereTok : List Char) : List Char :=
  whereTok ++ " is not friendly territory - invade first if you want to go there".data

def confirmedOrderText (amount : Int) (destMarkdown : List Char) (o : OrderM) : List Char :=
  "**Confirmed**: You are leading ".data ++ intToChars amount ++
  " of your people to ".data ++ destMarkdown ++ ". You will arrive at ".data ++
  o.arrivalStr ++ ".".data

def confirmedArrivedText (amount : Int) (destMarkdown : List Char) : List Char :=
  "**Confirmed**: You have lead ".data ++ intToChars amount ++
  " of your people to ".data ++ destMarkdown ++ ".".data

/-- Observable outcome of one `MoveCommand.execute` run: the replies
rendered, the player's `defectable` flag afterwards, the number of
`session.commit()` calls, the amount handed to `Player.move` (when reached),
and the move operation's result (when reached). -/
structure MTrace where
  replies : List (List Char)
  defectable : Bool
  commits : Nat
  attempted : Option Int
  order : Option (Option OrderM)
deriving DecidableEq, Repr

/-- Shallow embedding of `MoveCommand.execute`.  The database operation
`context.player.move(amount, dest, time_taken)` is the oracle `moveResult`
(modelled from the spec's MovementScheduler contract): a typed failure, or
the created order — `none` meaning a zero-transit move that already
arrived.  `speed` is `config["game"]["speed"]`, passed through unchanged as
the transit time. -/
def moveExecute (cmd : MoveCmd) (player : MPlayer) (regions : List RegionM)
    (speed : Nat)
    (moveResult : Int → RegionM → Nat → Except MoveErr (Option OrderM)) : MTrace :=
  match get_region cmd.whereTok regions with
  | none =>
    { replies := [unknownRegionText cmd.whereTok], defectable := player.defectable,
      commits := 0, attempted := none, order := none }
  | some dest =>
    let amount := if cmd.amount = -1 then player.loyalists else cmd.amount
    match moveResult amount dest speed with
    | .error (.insufficient req avail) =>
      { replies := [insufficientMoveText req avail], defectable := player.defectable,
        commits := 0, attempted := some amount, order := none }
    | .error .nonAdjacent =>
      { replies := [nonAdjacentMoveText player.regionMarkdown dest.markdown],
        defectable := player.defectable, commits := 0, attempted := some amount,
        order := none }
    | .error (.inProgress (.order o)) =>
      { replies := [orderBlockText o], defectable := player.defectable,
        commits := 0, attempted := some amount, order := none }
    | .error (.inProgress (.commitment c)) =>
      { replies := [battleBlockText c], defectable := player.defectable,
        commits := 0, attempted := some amount, order := none }
    | .error .team =>
      { replies := [teamMoveText cmd.whereTok], defectable := player.defectable,
        commits := 0, attempted := some amount, order := none }
    | .ok ord =>
      { replies := [match ord with
          | some o => confirmedOrderText amount dest.markdown o
          | none => confirmedArrivedText amount dest.markdown],
        defectable := false, commits := 1, attempted := some amount,
        order := some ord }

/-- Modelled from the spec: a `Battle` row.  `Region.invade` creates it
scheduled at the given begin time, unresolved, with no lockout and no
announcement thread id; the handler may then set `lockout` and
`submission_id`. -/
structure IBattle where
  regionName : List Char
  begins : Nat
  resolved : Bool
  lockout : Option Nat
  submissionId : Option (List Char)
deriving DecidableEq, Repr

/-- Modelled from the spec: the typed failures `Region.invade` can raise.
For `InProgressException` the handler renders
`ipe.other.markdown("already")`, carried here as the rendered text. -/
inductive InvadeErr
  | rank
  | team
  | nonAdjacent
  | inProgress (otherAlreadyMarkdown : List Char)
deriving DecidableEq, Repr

def rankText : List Char :=
  "You don't have the authority to invade a region!".data

def teamInvadeText (destMarkdown : List Char) : List Char :=
  "You can't invade ".data ++ destMarkdown ++ ", you already own it!".data

def nonAdjacentInvadeText (destMarkdown : List Char) : List Char :=
  destMarkdown ++ " is not next to any territory you control".data

def inProgressInvadeText (destMarkdown otherAlready : List Char) : List Char :=
  destMarkdown ++ " is ".data ++ otherAlready ++ " being invaded!".data

def invadeErrText (e : InvadeErr) (destMarkdown : List Char) : List Char :=
  match e with
  | .rank => rankText
  | .team => teamInvadeText destMarkdown
  | .nonAdjacent => nonAdjacentInvadeText destMarkdown
  | .inProgress o => inProgressInvadeText destMarkdown o

def confirmedInvadeText (beginsStr : List Char) : List Char :=
  "**Confirmed**  Battle will begin at ".data ++ beginsStr

def invasionTitle (team : List Char) : List Char :=
  "[Invasion] The ".data ++ team ++ " armies march!".data

def invasionText (beginsStr : List Char) : List Char :=
  "Negotiations have broken down, and the trumpets of war have sounded.  Even now, civilians are being evacuated and the able-bodied drafted.  The conflict will soon be upon you.\n\nGather your forces while you can, for your enemy shall arrive at ".data
  ++ beginsStr

/-- Observable outcome of one `InvadeCommand.execute` run.  `committed` is
the battle row as durably committed when the handler returns (`none` when no
battle row is durable), `pending` the row as the session sees it,
`beginsArg` the begin time handed to `Region.invade`, `submitArgs` the
`(srname, title, text)` of the announcement submission when attempted, and
`replyResults` the (discarded) results of the `context.reply` calls. -/
structure ITrace where
  replies : List (List Char)
  replyResults : List (Option Unit)
  committed : Option IBattle
  pending : Option IBattle
  commits : Nat
  beginsArg : Option Nat
  submitArgs : Option (List Char × List Char × List Char)
deriving DecidableEq, Repr

/-- Shallow embedding of `InvadeCommand.execute`.  Session semantics
(modelled from the spec's transactional-scope contract): the battle created
by `invade` exists in the session but is durable only once
`session.commit()` runs; `session.rollback()` discards session changes made
since the last commit, restoring the last durably committed state — it
cannot undo a commit that already happened.  `t` is the handler's execution
time, `delay` is `config["game"]["battle_delay"]`, `lockoutCfg` the optional
`config["game"]["battle_lockout"]`, `invadeCheck` the outcome of the
spec-modelled domain validation of `Region.invade` (`none` = success),
`submitNet` the raw outcome of `reddit.submit`, `replyNet i` the raw outcome
of the i-th `comment.reply` call, `beginsStrFn` the rendering
`Battle.begins_str`, and `team` is `num_to_team(context.player.team)`. -/
def invadeExecute (whereTok : List Char) (regions : List RegionM)
    (t delay : Nat) (lockoutCfg : Option Nat)
    (invadeCheck : Option InvadeErr)
    (submitNet : Except Infra SubmissionM)
    (replyNet : Nat → Except Infra Unit)
    (beginsStrFn : Nat → List Char)
    (team : List Char) : ITrace :=
  match get_region whereTok regions with
  | none =>
    { replies := [unknownRegionText whereTok],
      replyResults := [contextReply (replyNet 0)],
      committed := none, pending := none, commits := 0,
      beginsArg := none, submitArgs := none }
  | some dest =>
    let begins := t + delay
    match invadeCheck with
    | some e =>
      { replies := [invadeErrText e dest.markdown],
        replyResults := [contextReply (replyNet 0)],
        committed := none, pending := none, commits := 0,
        beginsArg := some begins, submitArgs := none }
    | none =>
      let b0 : IBattle :=
        { regionName := dest.name, begins := begins, resolved := false,
          lockout := none, submissionId := none }
      let args := (dest.srname, invasionTitle team, invasionText (beginsStrFn begins))
      match lockoutCfg with
      | some l =>
        let b1 : IBattle := { b0 with lockout := some l }
        match contextSubmit submitNet with
        | some s =>
          let b2 : IBattle := { b1 with submissionId := some s.name }
          { replies := [confirmedInvadeText (beginsStrFn begins)],
            replyResults := [contextReply (replyNet 0)],
            committed := some b2, pending := some b2, commits := 2,
            beginsArg := some begins, submitArgs := some args }
        | none =>
          { replies := [confirmedInvadeText (beginsStrFn begins)],
            replyResults := [contextReply (replyNet 0)],
            committed := some b1, pending := some b1, commits := 1,
            beginsArg := some begins, submitArgs := some args }
      | none =>
        match contextSubmit submitNet with
        | some s =>
          let b2 : IBattle := { b0 with submissionId := some s.name }
          { replies := [confirmedInvadeText (beginsStrFn begins)],
            replyResults := [contextReply (replyNet 0)],
            committed := some b2, pending := some b2, commits := 1,
            beginsArg := some begins, submitArgs := some args }
        | none =>
          { replies := [confirmedInvadeText (beginsStrFn begins)],
            replyResults := [contextReply (replyNet 0)],
            committed := none, pending := none, commits := 0,
            beginsArg := some begins, submitArgs := some args }

/-- The fields of a praw comment that `SkirmishCommand.execute` reads.
`wasComment = none` models a comment object without the `was_comment`
attribute (the `getattr` default `True` applies then). -/
structure CommentM where
  wasComment : Option Bool
  linkId : List Char
  parentId : List Char
  name : List Char
  author : Option (List Char)
deriving DecidableEq, Repr

/-- A `Battle` row as the skirmish handler reads it: id (for the
`Processed` marker), announcement-thread id, and lockout seconds. -/
structure SBattle where
  id : Nat
  submissionId : Option (List Char)
  lockout : Nat
deriving DecidableEq, Repr

/-- Modelled from the spec: a `SkirmishAction` row as the skirmish handler
reads it.  `rootId` stands for `get_root().id` (in the missing `db.py`,
`get_root` walks parent links to the top); a node is a root exactly when
`rootId = id`. -/
structure SkirmishM where
  id : Nat
  rootId : Nat
  amount : Nat
  troopType : List Char
  commentId : Option (List Char)
deriving DecidableEq, Repr

/-- The session tables `SkirmishCommand.execute` touches. -/
structure SSession where
  battles : List SBattle
  skirmishes : List SkirmishM
  processed : List ProcessedM
deriving DecidableEq, Repr

/-- Modelled from the spec: the typed failures `create_skirmish` and `react`
can raise, carrying exactly what the handler reads from them. -/
inductive DomainErr
  | notPresent (actuallyAmMarkdown : List Char)
  | team (friendly : Bool)
  | inProgress
  | insufficient (requested : Int)
  | timing (late : Bool)
deriving DecidableEq, Repr

/-- The parsed state of a `SkirmishCommand`. -/
structure SkirmishCmd where
  action : List Char
  amount : Int
  troopType : List Char
deriving DecidableEq, Repr

/-- The `ALIASES` table of `SkirmishCommand`. -/
def skirmishAlias (s : List Char) : List Char :=
  if s = "calvalry".data then "cavalry".data
  else if s = "calvary".data then "cavalry".data
  else if s = "range".data then "ranged".data
  else s

/-- Shallow embedding of `SkirmishCommand.__init__`: aliases are applied to
the action (with `oppose` an alias of `attack`) and to the troop type, which
defaults to `infantry`. -/
def SkirmishCmd.ofTokens (action : List Char) (amount : Int)
    (troopType : Option (List Char)) : SkirmishCmd :=
  let a := skirmishAlias action
  { action := if a = "oppose".data then "attack".data else a,
    amount := amount,
    troopType :=
      match troopType with
      | some tt => skirmishAlias tt
      | none => "infantry".data }

/-- The player fields `SkirmishCommand.execute` reads. -/
structure SPlayer where
  committedLoyalists : Nat
  team : Nat
  moving : Option MovingM
deriving DecidableEq, Repr

def pmRefusalText : List Char :=
  "You must enter your skirmish commands in the appropriate battle post".data

def noBattleText : List Char := "There's no battle happening here!".data

def onlyReplyText : List Char :=
  "You can only use skirmish commands in reply to other confirmed skirmish commands".data

def notPresentText (actuallyAm : List Char) (moving : Option MovingM) : List Char :=
  ("Your armies are currently in ".data ++ actuallyAm ++
   " and thus cannot participate in this battle.".data) ++
  (match moving with
   | some m =>
     "\n\n(Your forces will arrive in ".data ++ m.destMarkdown ++
     " at ".data ++ m.arrivalStr ++ " )".data
   | none => [])

def skirmishErrText (e : DomainErr) (player : SPlayer) (lockout : Nat) : List Char :=
  match e with
  | .notPresent am => notPresentText am player.moving
  | .team friendly =>
    if friendly then "You cannot attack someone on your team".data
    else "You cannot aid the enemy!".data
  | .inProgress =>
    "You can only spearhead one offensive per battle (though you may still assist others)".data
  | .insufficient req =>
    if req ≤ 0 then "You must use at least 1 troop!".data
    else "You don't have ".data ++ intToChars req ++
      " troops to spare! (you have committed ".data ++
      natToChars player.committedLoyalists ++ " total)".data
  | .timing late =>
    if late then
      "Top-level attacks are disallowed in the last ".data ++ natToChars lockout ++
      " seconds of a battle".data
    else "The battle has not yet begun!".data

/-- The `(subskirmish N)` suffix the handler appends when the confirmed node
is not a root. -/
def subskirmishTag (sk : SkirmishM) : List Char :=
  if sk.rootId ≠ sk.id then " (subskirmish ".data ++ natToChars sk.id ++ ")".data
  else []

/-- The confirmation reply rendered by `SkirmishCommand.execute` on success. -/
def skirmishReplyText (sk : SkirmishM) (total : Nat) (team : List Char) : List Char :=
  "**Confirmed**: You have committed ".data ++ natToChars sk.amount ++
  " of your forces as **".data ++ sk.troopType ++
  "** to **Skirmish #".data ++ natToChars sk.rootId ++
  "**".data ++ subskirmishTag sk ++
  ".\n\nAs of now, you have committed ".data ++ natToChars total ++
  " total.  **For ".data ++ team ++ "!**".data

/-- Shallow embedding of `SkirmishCommand.find_skirmish_named`. -/
def find_skirmish_named (name : List Char) (sess : SSession) : Option SkirmishM :=
  sess.skirmishes.find? (fun s => decide (s.commentId = some name))

/-- Shallow embedding of `SkirmishCommand.find_skirmish_by_id`. -/
def find_skirmish_by_id (skid : Nat) (sess : SSession) : Option SkirmishM :=
  sess.skirmishes.find? (fun s => decide (s.id = skid))

/-- The context fields `SkirmishCommand.execute` consumes: the player, the
triggering comment, the session, the engine's configured username, the
messaging platform's fetch, and the team renderer `num_to_team`. -/
structure SContext where
  player : SPlayer
  comment : CommentM
  session : SSession
  username : List Char
  getInfo : List Char → Option RMessage
  numToTeam : Nat → List Char

/-- Observable outcome of one `SkirmishCommand.execute` run.  `battleLookup`
records whether the handler queried the session for the battle of this
post; `fetched` whether reconciliation performed a remote fetch;
`createCalled` whether `create_skirmish` was invoked; `reactedOn` the id of
the node `react` was invoked on, when it was. -/
structure STrace where
  replies : List (List Char)
  session : SSession
  battleLookup : Bool
  fetched : Bool
  commits : Nat
  createCalled : Bool
  reactedOn : Option Nat
deriving DecidableEq, Repr

/-- Success epilogue of `SkirmishCommand.execute`: render the confirmation,
stamp the triggering comment's name on the new node, commit. -/
def skirmishSuccess (ctx : SContext) (sk : SkirmishM) (total : Nat)
    (sess : SSession) (commits0 : Nat) (fetched : Bool) (createCalled : Bool)
    (reactedOn : Option Nat) : STrace :=
  let sk' := { sk with commentId := some ctx.comment.name }
  { replies := [skirmishReplyText sk total (ctx.numToTeam ctx.player.team)],
    session := { sess with skirmishes := sess.skirmishes ++ [sk'] },
    battleLookup := true, fetched := fetched, commits := commits0 + 1,
    createCalled := createCalled, reactedOn := reactedOn }

/-- The `parent.react(...)` arm of `SkirmishCommand.execute`: `hinder` is
whether the action is `attack`; the db reaction is the oracle
`reactResult` from the parent node's id and `hinder`, returning the created
node and the player's committed total afterwards, or a typed failure. -/
def skirmishReact (cmd : SkirmishCmd) (ctx : SContext) (current : SBattle)
    (parent : SkirmishM) (sess : SSession) (commits0 : Nat) (fetched : Bool)
    (reactResult : Nat → Bool → Except DomainErr (SkirmishM × Nat)) : STrace :=
  let hinder := decide (cmd.action = "attack".data)
  match reactResult parent.id hinder with
  | .ok (sk, total) =>
    skirmishSuccess ctx sk total sess commits0 fetched false (some parent.id)
  | .error e =>
    { replies := [skirmishErrText e ctx.player current.lockout], session := sess,
      battleLookup := true, fetched := fetched, commits := commits0,
      createCalled := false, reactedOn := some parent.id }

/-- Shallow embedding of `SkirmishCommand.execute`.  `createResult` is the
oracle for `current.create_skirmish(...)` (the created node and the player's
committed total afterwards, or a typed failure), `reactResult` the oracle
for `parent.react(...)`. -/
def skirmishExecute (cmd : SkirmishCmd) (ctx : SContext)
    (createResult : Except DomainErr (SkirmishM × Nat))
    (reactResult : Nat → Bool → Except DomainErr (SkirmishM × Nat)) : STrace :=
  if (ctx.comment.wasComment.getD true) = false then
    { replies := [pmRefusalText], session := ctx.session, battleLookup := false,
      fetched := false, commits := 0, createCalled := false, reactedOn := none }
  else
    let postId := ctx.comment.linkId
    match ctx.session.battles.find? (fun b => decide (b.submissionId = some postId)) with
    | none =>
      { replies := [noBattleText], session := ctx.session, battleLookup := true,
        fetched := false, commits := 0, createCalled := false, reactedOn := none }
    | some current =>
      if postId = ctx.comment.parentId then
        match createResult with
        | .ok (sk, total) => skirmishSuccess ctx sk total ctx.session 0 false true none
        | .error e =>
          { replies := [skirmishErrText e ctx.player current.lockout],
            session := ctx.session, battleLookup := true, fetched := false,
            commits := 0, createCalled := true, reactedOn := none }
      else
        match find_skirmish_named ctx.comment.parentId ctx.session with
        | some parent =>
          skirmishReact cmd ctx current parent ctx.session 0 false reactResult
        | none =>
          let ex := extract_subskirmish ctx.comment.author ctx.comment.parentId
            ctx.session.processed ctx.getInfo ctx.username current.id
          let sess1 := { ctx.session with processed := ex.processed }
          match ex.result with
          | some sub =>
            match find_skirmish_by_id sub sess1 with
            | some parent =>
              skirmishReact cmd ctx current parent sess1 ex.commits ex.fetched reactResult
            | none =>
              { replies := [onlyReplyText], session := sess1, battleLookup := true,
                fetched := ex.fetched, commits := ex.commits, createCalled := false,
                reactedOn := none }
          | none =>
            { replies := [onlyReplyText], session := sess1, battleLookup := true,
              fetched := ex.fetched, commits := ex.commits, createCalled := false,
              reactedOn := none }

/-- Concrete fetch oracle: the parent of `t1_p` is the engine's own
`**Skirmish #3**` confirmation reply. -/
def ownParentFetch : List Char → Option RMessage := fun s =>
  if s = "t1_p".data then
    some ⟨"t1_p".data, some "chromabot".data, "**Skirmish #3**".data⟩
  else none

/-- Concrete fetch oracle: the parent of `t1_p` is a message by another
user. -/
def otherParentFetch : List Char → Option RMessage := fun s =>
  if s = "t1_p".data then
    some ⟨"t1_p".data, some "dave".data, "some chatter".data⟩
  else none

theorem stripPfx_append (p s : List Char) : stripPfx p (p ++ s) = some s := by
  induction p with
  | nil => rfl
  | cons c cs ih => simp [stripPfx, ih]

theorem takeWhile_digits_append (ds : List Char) (close : Char) (rest : List Char)
    (hall : ∀ c ∈ ds, c.isDigit = true) (hc : close.isDigit = false) :
    (ds ++ close :: rest).takeWhile (fun c => c.isDigit) = ds ∧
    (ds ++ close :: rest).dropWhile (fun c => c.isDigit) = close :: rest := by
  induction ds with
  | nil => simp [List.takeWhile, List.dropWhile, hc]
  | cons d ds ih =>
    have hd : d.isDigit = true := hall d (by simp)
    have h2 := ih (fun c hcmem => hall c (by simp [hcmem]))
    simp [List.takeWhile_cons, List.dropWhile_cons, hd, h2.1, h2.2]

theorem tryHere_hit (lit : List Char) (close : Char) (ds rest : List Char)
    (hne : ds ≠ []) (hall : ∀ c ∈ ds, c.isDigit = true) (hc : close.isDigit = false) :
    tryHere lit close (lit ++ ds ++ close :: rest) = some (parseDigits ds) := by
  have h2 := takeWhile_digits_append ds close rest hall hc
  unfold tryHere
  rw [show lit ++ ds ++ close :: rest = lit ++ (ds ++ close :: rest) by
        simp [List.append_assoc],
      stripPfx_append]
  simp [h2.1, h2.2, hne]

theorem scanFor_skip (c0 : Char) (l' : List Char) (close : Char) (x y : List Char)
    (hx : c0 ∉ x) : scanFor (c0 :: l') close (x ++ y) = scanFor (c0 :: l') close y := by
  induction x with
  | nil => rfl
  | cons a xs ih =>
    have ha : ¬(a = c0) := fun h => hx (by simp [h])
    have hx' : c0 ∉ xs := fun h => hx (by simp [h])
    simp only [List.cons_append, scanFor, tryHere, stripPfx, ha, if_false]
    exact ih hx'

theorem scanFor_cons (lit : List Char) (close : Char) (c : Char) (cs : List Char) :
    scanFor lit close (c :: cs) =
      match tryHere lit close (c :: cs) with
      | some n => some n
      | none => scanFor lit close cs := rfl

theorem scanFor_at (c0 : Char) (l' : List Char) (close : Char) (ds rest : List Char)
    (hne : ds ≠ []) (hall : ∀ c ∈ ds, c.isDigit = true) (hc : close.isDigit = false) :
    scanFor (c0 :: l') close ((c0 :: l') ++ ds ++ close :: rest) = some (parseDigits ds) := by
  have h := tryHere_hit (c0 :: l') close ds rest hne hall hc
  have e : (c0 :: l') ++ ds ++ close :: rest = c0 :: (l' ++ (ds ++ close :: rest)) := by
    simp
  rw [e] at h ⊢
  rw [scanFor_cons, h]

theorem scanFor_none (c0 : Char) (l' : List Char) (close : Char) (t : List Char)
    (ht : c0 ∉ t) : scanFor (c0 :: l') close t = none := by
  induction t with
  | nil => rfl
  | cons a xs ih =>
    have ha : ¬(a = c0) := fun h => ht (by simp [h])
    have ht' : c0 ∉ xs := fun h => ht (by simp [h])
    simp only [scanFor, tryHere, stripPfx, ha, if_false]
    exact ih ht'

theorem scanFor_decomp (c0 : Char) (l' : List Char) (close : Char)
    (x ds y : List Char) (hx : c0 ∉ x)
    (hne : ds ≠ []) (hall : ∀ c ∈ ds, c.isDigit = true) (hc : close.isDigit = false) :
    scanFor (c0 :: l') close (x ++ ((c0 :: l') ++ ds ++ close :: y)) =
      some (parseDigits ds) := by
  rw [scanFor_skip c0 l' close x _ hx, scanFor_at c0 l' close ds y hne hall hc]

theorem digitChar_isDigit {d : Nat} (h : d < 10) : (Nat.digitChar d).isDigit = true := by
  interval_cases d <;> decide

theorem digitChar_toNat {d : Nat} (h : d < 10) : (Nat.digitChar d).toNat = 48 + d := by
  interval_cases d <;> decide

theorem natToChars_ne_nil (n : Nat) : natToChars n ≠ [] := by
  unfold natToChars
  split
  · simp
  · rename_i h
    simp [Nat.digits_ne_nil_iff_ne_zero.mpr h]

theorem natToChars_all_digit (n : Nat) : ∀ c ∈ natToChars n, c.isDigit = true := by
  unfold natToChars
  split
  · intro c hc; simp at hc; subst hc; decide
  · rename_i h
    intro c hc
    simp only [List.mem_reverse, List.mem_map] at hc
    obtain ⟨d, hd, rfl⟩ := hc
    exact digitChar_isDigit (Nat.digits_lt_base (by norm_num) hd)

theorem foldr_map_digitChar (ds : List Nat) (hall : ∀ d ∈ ds, d < 10) :
    (ds.map Nat.digitChar).foldr (fun c a => 10 * a + (c.toNat - 48)) 0 =
      Nat.ofDigits 10 ds := by
  induction ds with
  | nil => simp [Nat.ofDigits_nil]
  | cons d ds ih =>
    have hd : d < 10 := hall d (by simp)
    have h2 := ih (fun c hc => hall c (by simp [hc]))
    simp only [List.map_cons, List.foldr_cons, h2, Nat.ofDigits_cons,
      digitChar_toNat hd]
    omega

theorem parseDigits_natToChars (n : Nat) : parseDigits (natToChars n) = n := by
  unfold natToChars
  split
  · rename_i h; subst h; decide
  · rename_i h
    unfold parseDigits
    rw [List.foldl_reverse]
    have := foldr_map_digitChar (Nat.digits 10 n)
      (fun d hd => Nat.digits_lt_base (by norm_num) hd)
    simpa [this] using Nat.ofDigits_digits 10 n

theorem nmApp {c : Char} {l1 l2 : List Char} (h1 : c ∉ l1) (h2 : c ∉ l2) :
    c ∉ l1 ++ l2 :=
  fun h => (List.mem_append.mp h).elim h1 h2

theorem nmCons {c a : Char} {l : List Char} (h1 : ¬(c = a)) (h2 : c ∉ l) :
    c ∉ a :: l :=
  fun h => (List.mem_cons.mp h).elim h1 h2

theorem not_mem_of_not_digit {c : Char} (hc : c.isDigit = false) {l : List Char}
    (hall : ∀ x ∈ l, x.isDigit = true) : c ∉ l :=
  fun h => absurd (hall c h) (by simp [hc])

theorem paren_not_mem_natToChars (n : Nat) : '(' ∉ natToChars n :=
  not_mem_of_not_digit (by decide) (natToChars_all_digit n)

theorem upperS_not_mem_natToChars (n : Nat) : 'S' ∉ natToChars n :=
  not_mem_of_not_digit (by decide) (natToChars_all_digit n)

/-- If the body decomposes around a well-formed `(subskirmish N)` marker with
no earlier opening parenthesis, the two-regex extraction returns `N`. -/
theorem extractIdFromBody_sub (x y : List Char) (n : Nat) (hx : '(' ∉ x) :
    extractIdFromBody (x ++ (subLit ++ natToChars n ++ ')' :: y)) = some n := by
  have h := scanFor_decomp '(' "subskirmish ".data ')' x (natToChars n) y hx
    (natToChars_ne_nil n) (natToChars_all_digit n) (by decide)
  unfold extractIdFromBody
  rw [show subLit = '(' :: "subskirmish ".data from rfl] at *
  rw [h, parseDigits_natToChars]

/-- If the body has no opening parenthesis at all (so the `subskirmish`
pattern cannot match) and decomposes around a well-formed `Skirmish #N*`
marker with no earlier capital `S`, the two-regex extraction returns `N`. -/
theorem extractIdFromBody_sk (x y : List Char) (n : Nat)
    (hnp : '(' ∉ x ++ (skLit ++ natToChars n ++ '*' :: y)) (hx : 'S' ∉ x) :
    extractIdFromBody (x ++ (skLit ++ natToChars n ++ '*' :: y)) = some n := by
  have h1 : scanFor subLit ')' (x ++ (skLit ++ natToChars n ++ '*' :: y)) = none := by
    rw [show subLit = '(' :: "subskirmish ".data from rfl]
    exact scanFor_none _ _ _ _ hnp
  have h2 := scanFor_decomp 'S' "kirmish #".data '*' x (natToChars n) y hx
    (natToChars_ne_nil n) (natToChars_all_digit n) (by decide)
  unfold extractIdFromBody
  rw [h1, show skLit = 'S' :: "kirmish #".data from rfl] at *
  rw [h2, parseDigits_natToChars]

theorem extract_shortcircuit (a1 : Option (List Char)) (pid : List Char)
    (processed : List ProcessedM) (getInfo : List Char → Option RMessage)
    (username : List Char) (battleId : Nat)
    (hfound : 0 < (processed.filter (fun p => p.id36 = pid)).length) :
    extract_subskirmish a1 pid processed getInfo username battleId
      = ⟨none, processed, false, 0⟩ := by
  rcases a1 with _ | u
  · simp [extract_subskirmish]
  · simp [extract_subskirmish, hfound]

theorem extract_processed_cases (a1 : Option (List Char)) (pid : List Char)
    (processed : List ProcessedM) (getInfo : List Char → Option RMessage)
    (username : List Char) (battleId : Nat)
    (hwf : ∀ m, getInfo pid = some m → m.name = pid) :
    (extract_subskirmish a1 pid processed getInfo username battleId).processed
      = processed ∨
    (extract_subskirmish a1 pid processed getInfo username battleId).processed
      = processed ++ [⟨pid, battleId⟩] := by
  rcases a1 with _ | u
  · left; simp [extract_subskirmish]
  · by_cases hfound : 0 < (processed.filter (fun p => p.id36 = pid)).length
    · left; simp [extract_subskirmish, hfound]
    · cases hg : getInfo pid with
      | none => left; simp [extract_subskirmish, hfound, hg]
      | some m =>
        cases hA : m.author with
        | none => left; simp [extract_subskirmish, hfound, hg, hA]
        | some a =>
          by_cases ha : a = username
          · left; simp [extract_subskirmish, hfound, hg, hA, ha]
          · right; simp [extract_subskirmish, hfound, hg, hA, ha, hwf m hg]

/-- C3 (amended): for an external parent message id not yet in the
`Processed` log, submitting it to reconciliation twice for the same battle
writes a `ProcessedMarker` for it at most once; and whenever the first
attempt did record a marker (the parent's author was not the engine), the
second attempt fails closed — no match, no remote fetch, no further
marker. -/
theorem reconciliation_idempotent
    (a1 a2 : Option (List Char)) (pid : List Char) (processed : List ProcessedM)
    (getInfo : List Char → Option RMessage) (username : List Char) (battleId : Nat)
    (hwf : ∀ m, getInfo pid = some m → m.name = pid)
    (hfresh : ∀ p ∈ processed, p.id36 ≠ pid) :
    (((extract_subskirmish a2 pid
        (extract_subskirmish a1 pid processed getInfo username battleId).processed
        getInfo username battleId).processed.filter
          (fun p => p.id36 = pid)).length ≤ 1) ∧
    (0 < ((extract_subskirmish a1 pid processed getInfo username
        battleId).processed.filter (fun p => p.id36 = pid)).length →
      extract_subskirmish a2 pid
        (extract_subskirmish a1 pid processed getInfo username battleId).processed
        getInfo username battleId
      = ⟨none,
         (extract_subskirmish a1 pid processed getInfo username battleId).processed,
         false, 0⟩) := by
  have hnil : processed.filter (fun p => p.id36 = pid) = [] :=
    List.filter_eq_nil_iff.mpr (fun p hp => by simp [hfresh p hp])
  have hcount1 :
      ((processed ++ [(⟨pid, battleId⟩ : ProcessedM)]).filter
        (fun p => p.id36 = pid)).length = 1 := by
    rw [List.filter_append, hnil]
    simp
  rcases extract_processed_cases a1 pid processed getInfo username battleId hwf
    with h1 | h1
  · constructor
    · rw [h1]
      rcases extract_processed_cases a2 pid processed getInfo username battleId hwf
        with h2 | h2
      · rw [h2, hnil]; simp
      · rw [h2, hcount1]
    · intro habs
      rw [h1, hnil] at habs
      simp at habs
  · have hpos : 0 < ((extract_subskirmish a1 pid processed getInfo username
        battleId).processed.filter (fun p => p.id36 = pid)).length := by
      rw [h1, hcount1]
      decide
    have hsc := extract_shortcircuit a2 pid
      ((extract_subskirmish a1 pid processed getInfo username battleId).processed)
      getInfo username battleId hpos
    constructor
    · rw [hsc, h1, hcount1]
    · intro _
      exact hsc

/-- C3 counterexample: the claim says a second reconciliation of the same
parent id always short-circuits without a remote fetch and returns no
match.  But when the parent is the engine's own reply (so the first attempt
wrote no marker), the second attempt fetches again and returns a match. -/
theorem reconciliation_refetch_cex :
    (extract_subskirmish (some "bob".data) "t1_p".data
      (extract_subskirmish (some "alice".data) "t1_p".data [] ownParentFetch
        "chromabot".data 5).processed
      ownParentFetch "chromabot".data 5).fetched = true ∧
    (extract_subskirmish (some "bob".data) "t1_p".data
      (extract_subskirmish (some "alice".data) "t1_p".data [] ownParentFetch
        "chromabot".data 5).processed
      ownParentFetch "chromabot".data 5).result = some 3 := by
  constructor <;> rfl

/-- C3 witness: the amended theorem applied to a concrete run whose first
attempt records the marker (parent authored by another user): the marker
count stays at one and the second attempt short-circuits. -/
theorem reconciliation_idempotent_witness :
    (((extract_subskirmish (some "bob".data) "t1_p".data
        (extract_subskirmish (some "alice".data) "t1_p".data [] otherParentFetch
          "chromabot".data 5).processed
        otherParentFetch "chromabot".data 5).processed.filter
          (fun p => p.id36 = "t1_p".data)).length ≤ 1) ∧
    (extract_subskirmish (some "bob".data) "t1_p".data
        (extract_subskirmish (some "alice".data) "t1_p".data [] otherParentFetch
          "chromabot".data 5).processed
        otherParentFetch "chromabot".data 5
      = ⟨none,
         (extract_subskirmish (some "alice".data) "t1_p".data [] otherParentFetch
           "chromabot".data 5).processed,
         false, 0⟩) := by
  have h := reconciliation_idempotent (some "alice".data) (some "bob".data)
    "t1_p".data [] otherParentFetch "chromabot".data 5
    (by
      intro m hm
      simp only [otherParentFetch, if_pos rfl] at hm
      cases hm
      rfl)
    (by intro p hp; exact absurd hp (List.not_mem_nil p))
  exact ⟨h.1, h.2 (by decide)⟩

/-- C2: reconciliation of a reacting comment whose parent is not a tracked
SkirmishAction.  With the comment authored, the parent id unprocessed and
the parent fetched with an author: (1) if that author is not the engine's
identity, a `ProcessedMarker` for the parent message is recorded against the
battle and the reconciliation fails; (2) otherwise the result is the
two-regex extraction over the parent's text, with no marker written;
(3) the extraction matches the `subskirmish N` marker first — a well-formed
`(subskirmish N)` with no earlier opening parenthesis yields `N`; (4) with
no opening parenthesis anywhere, a well-formed `Skirmish #N*` marker with no
earlier capital S yields `N`; (5) in `SkirmishCommand.execute`, a skirmish
id extracted this way is resolved by id lookup: the node handed to `react`
is the one `find_skirmish_by_id` returns. -/
theorem reconciliation_untracked_parent
    (u pid username : List Char) (processed : List ProcessedM)
    (getInfo : List Char → Option RMessage) (battleId : Nat)
    (parent : RMessage) (a : List Char)
    (hP : ∀ p ∈ processed, p.id36 ≠ pid)
    (hG : getInfo pid = some parent)
    (hA : parent.author = some a) :
    (a ≠ username →
      extract_subskirmish (some u) pid processed getInfo username battleId =
        ⟨none, processed ++ [⟨parent.name, battleId⟩], true, 1⟩) ∧
    (a = username →
      extract_subskirmish (some u) pid processed getInfo username battleId =
        ⟨extractIdFromBody parent.body, processed, true, 0⟩) ∧
    (∀ x y n, parent.body = x ++ (subLit ++ natToChars n ++ ')' :: y) →
      '(' ∉ x → extractIdFromBody parent.body = some n) ∧
    ('(' ∉ parent.body →
      ∀ x y n, parent.body = x ++ (skLit ++ natToChars n ++ '*' :: y) →
        'S' ∉ x → extractIdFromBody parent.body = some n) ∧
    (∀ (cmd : SkirmishCmd) (ctx : SContext)
        (createResult : Except DomainErr (SkirmishM × Nat))
        (reactResult : Nat → Bool → Except DomainErr (SkirmishM × Nat))
        (current : SBattle) (n : Nat) (p : SkirmishM),
      (ctx.comment.wasComment.getD true) = true →
      ctx.session.battles.find?
        (fun b => decide (b.submissionId = some ctx.comment.linkId)) = some current →
      ¬(ctx.comment.linkId = ctx.comment.parentId) →
      find_skirmish_named ctx.comment.parentId ctx.session = none →
      (extract_subskirmish ctx.comment.author ctx.comment.parentId
        ctx.session.processed ctx.getInfo ctx.username current.id).result = some n →
      find_skirmish_by_id n
        { ctx.session with
            processed := (extract_subskirmish ctx.comment.author ctx.comment.parentId
              ctx.session.processed ctx.getInfo ctx.username current.id).processed }
        = some p →
      (skirmishExecute cmd ctx createResult reactResult).reactedOn = some p.id) := by
  have hnil : processed.filter (fun p => p.id36 = pid) = [] :=
    List.filter_eq_nil_iff.mpr (fun p hp => by simp [hP p hp])
  refine ⟨?_, ?_, ?_, ?_, ?_⟩
  · intro hne
    simp [extract_subskirmish, hnil, hG, hA, hne]
  · intro heq
    simp [extract_subskirmish, hnil, hG, hA, heq]
  · intro x y n hbody hx
    rw [hbody]
    exact extractIdFromBody_sub x y n hx
  · intro hnp x y n hbody hx
    rw [hbody] at hnp ⊢
    exact extractIdFromBody_sk x y n hnp hx
  · intro cmd ctx createResult reactResult current n p h1 h2 h3 h4 h5 h6
    unfold skirmishExecute
    rw [h1]
    simp only [Bool.true_eq_false, if_false, h2, h3, if_false, h4, h5, h6]
    cases hrr : reactResult p.id (decide (cmd.action = "attack".data)) with
    | ok v =>
      obtain ⟨sk, total⟩ := v
      simp [skirmishReact, skirmishSuccess, hrr]
    | error e => simp [skirmishReact, hrr]

/-- C4: round-trip between reply rendering and reconciliation.  Applying the
two-regex extraction to a skirmish confirmation reply yields exactly the id
of the node the reply confirmed: the node's own id when it is not a root
(the `(subskirmish N)` marker is present and matched first by the first
pattern), and the root's id (via the `Skirmish #N` marker) when it is a
root.  The troop type is one of the three the game admits; the team name is
assumed free of opening parentheses. -/
theorem skirmish_reply_roundtrip (sk : SkirmishM) (total : Nat) (team : List Char)
    (htroop : sk.troopType = "infantry".data ∨ sk.troopType = "cavalry".data ∨
      sk.troopType = "ranged".data)
    (hteam : '(' ∉ team) :
    (sk.rootId ≠ sk.id →
      extractIdFromBody (skirmishReplyText sk total team) = some sk.id) ∧
    (sk.rootId = sk.id →
      extractIdFromBody (skirmishReplyText sk total team) = some sk.rootId) := by
  have hT1 : '(' ∉ sk.troopType := by
    rcases htroop with h|h|h <;> rw [h] <;> decide
  have hT2 : 'S' ∉ sk.troopType := by
    rcases htroop with h|h|h <;> rw [h] <;> decide
  constructor
  · intro hne
    have hEq : skirmishReplyText sk total team =
        ("**Confirmed**: You have committed ".data ++ (natToChars sk.amount ++
         (" of your forces as **".data ++ (sk.troopType ++
         ("** to **Skirmish #".data ++ (natToChars sk.rootId ++
         ("**".data ++ [' '])))))))
        ++ (subLit ++ natToChars sk.id ++ ')' ::
         (".\n\nAs of now, you have committed ".data ++ (natToChars total ++
          (" total.  **For ".data ++ (team ++ "!**".data))))) := by
      unfold skirmishReplyText subskirmishTag
      rw [if_pos hne]
      rw [show (" (subskirmish ".data : List Char) = [' '] ++ subLit from by decide]
      rw [show (")".data : List Char) = [')'] from by decide]
      simp [List.append_assoc]
    rw [hEq]
    refine extractIdFromBody_sub _ _ _ ?_
    exact nmApp (by decide) (nmApp (paren_not_mem_natToChars _) (nmApp (by decide)
      (nmApp hT1 (nmApp (by decide) (nmApp (paren_not_mem_natToChars _)
      (by decide))))))
  · intro hroot
    have hTag : subskirmishTag sk = [] := by
      unfold subskirmishTag
      rw [if_neg (fun h => h hroot)]
    have hEq : skirmishReplyText sk total team =
        ("**Confirmed**: You have committed ".data ++ (natToChars sk.amount ++
         (" of your forces as **".data ++ (sk.troopType ++ "** to **".data))))
        ++ (skLit ++ natToChars sk.rootId ++ '*' ::
         ('*' :: (".\n\nAs of now, you have committed ".data ++ (natToChars total ++
          (" total.  **For ".data ++ (team ++ "!**".data)))))) := by
      unfold skirmishReplyText
      rw [hTag]
      rw [show ("** to **Skirmish #".data : List Char) = "** to **".data ++ skLit
        from by decide]
      rw [show ("**".data : List Char) = '*' :: '*' :: [] from by decide]
      simp [List.append_assoc]
    rw [hEq]
    refine extractIdFromBody_sk _ _ _ ?_ ?_
    · refine nmApp ?_ (nmApp (nmApp ?_ ?_) (nmCons ?_ (nmCons ?_ ?_)))
      · exact nmApp (by decide) (nmApp (paren_not_mem_natToChars _)
          (nmApp (by decide) (nmApp hT1 (by decide))))
      · decide
      · exact paren_not_mem_natToChars _
      · decide
      · decide
      · exact nmApp (by decide) (nmApp (paren_not_mem_natToChars _)
          (nmApp (by decide) (nmApp hteam (by decide))))
    · exact nmApp (by decide) (nmApp (upperS_not_mem_natToChars _)
        (nmApp (by decide) (nmApp hT2 (by decide))))

/-- C2 witness: the reconciliation theorem at concrete inputs — a parent
authored by another user is marked processed and yields no match, and a
parent authored by the engine yields the two-regex extraction of its body. -/
theorem reconciliation_untracked_parent_witness :
    extract_subskirmish (some "alice".data) "t1_p".data [] otherParentFetch
      "chromabot".data 5
      = ⟨none, [] ++ [⟨"t1_p".data, 5⟩], true, 1⟩ ∧
    extract_subskirmish (some "alice".data) "t1_p".data [] ownParentFetch
      "chromabot".data 5
      = ⟨extractIdFromBody "**Skirmish #3**".data, [], true, 0⟩ := by
  constructor
  · exact (reconciliation_untracked_parent "alice".data "t1_p".data "chromabot".data
      [] otherParentFetch 5 ⟨"t1_p".data, some "dave".data, "some chatter".data⟩
      "dave".data (fun p hp => absurd hp (List.not_mem_nil p)) (by decide) rfl).1
      (by decide)
  · exact (reconciliation_untracked_parent "alice".data "t1_p".data "chromabot".data
      [] ownParentFetch 5
      ⟨"t1_p".data, some "chromabot".data, "**Skirmish #3**".data⟩
      "chromabot".data (fun p hp => absurd hp (List.not_mem_nil p)) (by decide)
      rfl).2.1 rfl

/-- C4 witness: the round-trip theorem at a concrete non-root reply (node 12
under root 7) and a concrete root reply (node 7). -/
theorem skirmish_reply_roundtrip_witness :
    extractIdFromBody (skirmishReplyText ⟨12, 7, 30, "infantry".data, none⟩ 30
      "Orangered".data) = some 12 ∧
    extractIdFromBody (skirmishReplyText ⟨7, 7, 30, "cavalry".data, none⟩ 30
      "Periwinkle".data) = some 7 := by
  constructor
  · exact (skirmish_reply_roundtrip ⟨12, 7, 30, "infantry".data, none⟩ 30
      "Orangered".data (Or.inl rfl) (by decide)).1 (by decide)
  · exact (skirmish_reply_roundtrip ⟨7, 7, 30, "cavalry".data, none⟩ 30
      "Periwinkle".data (Or.inr (Or.inl rfl)) (by decide)).2 rfl

/-- C10: a skirmish command that did not arrive as a comment (a private
message) is refused before any battle lookup: the handler replies the
refusal and returns with the session untouched — no battle query, no
skirmish created or reacted on, no remote fetch, no commit. -/
theorem skirmish_pm_refused (cmd : SkirmishCmd) (ctx : SContext)
    (createResult : Except DomainErr (SkirmishM × Nat))
    (reactResult : Nat → Bool → Except DomainErr (SkirmishM × Nat))
    (h : ctx.comment.wasComment = some false) :
    skirmishExecute cmd ctx createResult reactResult =
      { replies := [pmRefusalText], session := ctx.session, battleLookup := false,
        fetched := false, commits := 0, createCalled := false, reactedOn := none } := by
  unfold skirmishExecute
  rw [h]
  simp

/-- C10 witness: a concrete skirmish command arriving as a private message. -/
theorem skirmish_pm_refused_witness :
    skirmishExecute ⟨"attack".data, 5, "infantry".data⟩
      { player := ⟨0, 1, none⟩,
        comment := ⟨some false, "t3_b".data, "t3_b".data, "t1_c".data,
          some "alice".data⟩,
        session := ⟨[], [], []⟩,
        username := "chromabot".data,
        getInfo := fun _ => none,
        numToTeam := fun _ => "Orangered".data }
      (.error .inProgress) (fun _ _ => .error .inProgress) =
      { replies := [pmRefusalText], session := ⟨[], [], []⟩, battleLookup := false,
        fetched := false, commits := 0, createCalled := false, reactedOn := none } :=
  skirmish_pm_refused _ _ _ _ rfl

/-- C1 (code bug): `InvadeCommand.execute` commits the session right after
setting `battle.lockout` — before the announcement submission — so when a
`battle_lockout` is configured and the submission fails, the final
`session.rollback()` cannot undo the battle row: a Battle without its
announcement thread id remains durably committed.  Without a configured
lockout the rollback does discard the battle, as the claim expects. -/
theorem invade_rollback_bug :
    (invadeExecute "r2".data [⟨"r2".data, "cbr2".data, "[r2]".data⟩] 0 600
      (some 300) none (.error .timeout) (fun _ => .ok ()) (fun _ => [])
      "Orangered".data).committed
      = some ⟨"r2".data, 600, false, some 300, none⟩ ∧
    (invadeExecute "r2".data [⟨"r2".data, "cbr2".data, "[r2]".data⟩] 0 600
      none none (.error .timeout) (fun _ => .ok ()) (fun _ => [])
      "Orangered".data).committed = none := by
  constructor <;> rfl

/-- C9: an invade on a known region attempts the invasion with begin time
equal to the execution time plus the configured battle start delay, and a
successful invasion yields a committed battle with that begin time,
unresolved, on the destination region, carrying the submitted thread id. -/
theorem invade_begins_at_delay (whereTok : List Char) (regions : List RegionM)
    (t delay : Nat) (lockoutCfg : Option Nat) (s : SubmissionM)
    (replyNet : Nat → Except Infra Unit) (beginsStrFn : Nat → List Char)
    (team : List Char) (dest : RegionM)
    (hdest : get_region whereTok regions = some dest) :
    (invadeExecute whereTok regions t delay lockoutCfg none (.ok s) replyNet
      beginsStrFn team).beginsArg = some (t + delay) ∧
    ∃ b : IBattle,
      (invadeExecute whereTok regions t delay lockoutCfg none (.ok s) replyNet
        beginsStrFn team).committed = some b ∧
      b.begins = t + delay ∧ b.resolved = false ∧ b.regionName = dest.name ∧
      b.submissionId = some s.name := by
  unfold invadeExecute
  rw [hdest]
  cases lockoutCfg <;> exact ⟨rfl, _, rfl, rfl, rfl, rfl, rfl⟩

/-- C9 witness: a concrete invade at time 1000 with delay 600 on a known
region, announcement submitted successfully. -/
theorem invade_begins_at_delay_witness :
    (invadeExecute "r2".data [⟨"r2".data, "cbr2".data, "[r2]".data⟩] 1000 600
      none none (.ok ⟨"t3_x".data⟩) (fun _ => .ok ()) (fun _ => [])
      "Orangered".data).beginsArg = some (1000 + 600) ∧
    ∃ b : IBattle,
      (invadeExecute "r2".data [⟨"r2".data, "cbr2".data, "[r2]".data⟩] 1000 600
        none none (.ok ⟨"t3_x".data⟩) (fun _ => .ok ()) (fun _ => [])
        "Orangered".data).committed = some b ∧
      b.begins = 1000 + 600 ∧ b.resolved = false ∧ b.regionName = "r2".data ∧
      b.submissionId = some "t3_x".data :=
  invade_begins_at_delay "r2".data [⟨"r2".data, "cbr2".data, "[r2]".data⟩]
    1000 600 none ⟨"t3_x".data⟩ (fun _ => .ok ()) (fun _ => [])
    "Orangered".data ⟨"r2".data, "cbr2".data, "[r2]".data⟩ rfl

/-- C8: infrastructure failures at the messaging boundary (remote API error,
socket timeout) are converted by `failable` into a `None` result instead of
raising — in particular under `Context.reply` and `Context.submit` — and the
raw outcomes of the informational reply calls never change the battle state
committed by the invade handler or its number of commits. -/
theorem notification_failures_soft :
    (∀ (α : Type) (e : Infra), failable (Except.error e : Except Infra α) = none) ∧
    (∀ e : Infra, contextReply (Except.error e) = none) ∧
    (∀ e : Infra, contextSubmit (Except.error e) = none) ∧
    (∀ a : SubmissionM, contextSubmit (Except.ok a) = some a) ∧
    (∀ (whereTok : List Char) (regions : List RegionM) (t delay : Nat)
       (lockoutCfg : Option Nat) (invadeCheck : Option InvadeErr)
       (submitNet : Except Infra SubmissionM)
       (r1 r2 : Nat → Except Infra Unit) (bf : Nat → List Char)
       (team : List Char),
      (invadeExecute whereTok regions t delay lockoutCfg invadeCheck submitNet r1
        bf team).committed =
      (invadeExecute whereTok regions t delay lockoutCfg invadeCheck submitNet r2
        bf team).committed ∧
      (invadeExecute whereTok regions t delay lockoutCfg invadeCheck submitNet r1
        bf team).commits =
      (invadeExecute whereTok regions t delay lockoutCfg invadeCheck submitNet r2
        bf team).commits) := by
  refine ⟨fun α e => rfl, fun e => rfl, fun e => rfl, fun a => rfl, ?_⟩
  intro whereTok regions t delay lockoutCfg invadeCheck submitNet r1 r2 bf team
  unfold invadeExecute
  constructor <;> (repeat' split) <;> rfl

/-- C5: a move blocked by an InProgressException renders a reply that lets
the caller distinguish the blocker: a pending movement order reports its
destination and arrival time, a battle commitment reports the battle's
region, and the two renderings are never equal. -/
theorem move_inprogress_distinguishable (cmd : MoveCmd) (player : MPlayer)
    (regions : List RegionM) (speed : Nat)
    (moveResult : Int → RegionM → Nat → Except MoveErr (Option OrderM))
    (dest : RegionM)
    (hdest : get_region cmd.whereTok regions = some dest) :
    (∀ o : MovingM,
      moveResult (if cmd.amount = -1 then player.loyalists else cmd.amount) dest
        speed = .error (.inProgress (.order o)) →
      (moveExecute cmd player regions speed moveResult).replies
        = [orderBlockText o] ∧
      o.destMarkdown <:+: orderBlockText o ∧ o.arrivalStr <:+: orderBlockText o) ∧
    (∀ c : MCommit,
      moveResult (if cmd.amount = -1 then player.loyalists else cmd.amount) dest
        speed = .error (.inProgress (.commitment c)) →
      (moveExecute cmd player regions speed moveResult).replies
        = [battleBlockText c] ∧
      c.battleRegionMarkdown <:+: battleBlockText c) ∧
    (∀ (o : MovingM) (c : MCommit), orderBlockText o ≠ battleBlockText c) := by
  refine ⟨?_, ?_, ?_⟩
  · intro o h
    refine ⟨by simp [moveExecute, hdest, h], ?_, ?_⟩
    · exact ⟨"You are already leading your armies to ".data,
        " - you can give further orders upon your arrival at ".data ++ o.arrivalStr,
        by simp [orderBlockText, List.append_assoc]⟩
    · exact ⟨"You are already leading your armies to ".data ++ o.destMarkdown ++
        " - you can give further orders upon your arrival at ".data, [],
        by simp [orderBlockText, List.append_assoc]⟩
  · intro c h
    refine ⟨by simp [moveExecute, hdest, h], ?_⟩
    exact ⟨"You have committed your armies to the battle at ".data,
      " - you must see this through to the bitter end.".data,
      by simp [battleBlockText, List.append_assoc]⟩
  · intro o c h
    have h8 : (orderBlockText o).take 8 = (battleBlockText c).take 8 := by rw [h]
    unfold orderBlockText battleBlockText at h8
    simp only [List.append_assoc] at h8
    rw [List.take_append_of_le_length (by decide),
        List.take_append_of_le_length (by decide)] at h8
    exact absurd h8 (by decide)

/-- C5 witness: a concrete move blocked first by a pending order, then by a
battle commitment, with the two renderings distinct. -/
theorem move_inprogress_distinguishable_witness :
    (moveExecute ⟨50, "r2".data⟩ ⟨100, true, "[cap]".data⟩
      [⟨"r2".data, "cbr2".data, "[r2]".data⟩] 60
      (fun _ _ _ => .error (.inProgress (.order ⟨"[r3]".data, "3 pm".data⟩)))).replies
      = [orderBlockText ⟨"[r3]".data, "3 pm".data⟩] ∧
    (moveExecute ⟨50, "r2".data⟩ ⟨100, true, "[cap]".data⟩
      [⟨"r2".data, "cbr2".data, "[r2]".data⟩] 60
      (fun _ _ _ => .error (.inProgress (.commitment ⟨"[r9]".data⟩)))).replies
      = [battleBlockText ⟨"[r9]".data⟩] ∧
    orderBlockText ⟨"[r3]".data, "3 pm".data⟩ ≠ battleBlockText ⟨"[r9]".data⟩ := by
  refine ⟨?_, ?_, ?_⟩
  · exact ((move_inprogress_distinguishable ⟨50, "r2".data⟩ ⟨100, true, "[cap]".data⟩
      [⟨"r2".data, "cbr2".data, "[r2]".data⟩] 60
      (fun _ _ _ => .error (.inProgress (.order ⟨"[r3]".data, "3 pm".data⟩)))
      ⟨"r2".data, "cbr2".data, "[r2]".data⟩ rfl).1 _ rfl).1
  · exact ((move_inprogress_distinguishable ⟨50, "r2".data⟩ ⟨100, true, "[cap]".data⟩
      [⟨"r2".data, "cbr2".data, "[r2]".data⟩] 60
      (fun _ _ _ => .error (.inProgress (.commitment ⟨"[r9]".data⟩)))
      ⟨"r2".data, "cbr2".data, "[r2]".data⟩ rfl).2.1 _ rfl).1
  · exact (move_inprogress_distinguishable ⟨50, "r2".data⟩ ⟨100, true, "[cap]".data⟩
      [⟨"r2".data, "cbr2".data, "[r2]".data⟩] 60
      (fun _ _ _ => .error (.inProgress (.commitment ⟨"[r9]".data⟩)))
      ⟨"r2".data, "cbr2".data, "[r2]".data⟩ rfl).2.2 _ _

/-- C6: move result and frame.  On success the handler clears the player's
defectable flag and commits once: an immediate arrival (`None` from the move
operation) renders the "have lead" confirmation, a created order renders the
"will arrive" confirmation carrying the order.  On every typed failure the
handler returns before the flag is touched or the transaction committed. -/
theorem move_success_and_failure_frame (cmd : MoveCmd) (player : MPlayer)
    (regions : List RegionM) (speed : Nat)
    (moveResult : Int → RegionM → Nat → Except MoveErr (Option OrderM))
    (dest : RegionM)
    (hdest : get_region cmd.whereTok regions = some dest) :
    (moveResult (if cmd.amount = -1 then player.loyalists else cmd.amount) dest
        speed = .ok none →
      moveExecute cmd player regions speed moveResult =
        { replies := [confirmedArrivedText
            (if cmd.amount = -1 then player.loyalists else cmd.amount)
            dest.markdown],
          defectable := false, commits := 1,
          attempted :=
            some (if cmd.amount = -1 then player.loyalists else cmd.amount),
          order := some none }) ∧
    (∀ o : OrderM,
      moveResult (if cmd.amount = -1 then player.loyalists else cmd.amount) dest
        speed = .ok (some o) →
      moveExecute cmd player regions speed moveResult =
        { replies := [confirmedOrderText
            (if cmd.amount = -1 then player.loyalists else cmd.amount)
            dest.markdown o],
          defectable := false, commits := 1,
          attempted :=
            some (if cmd.amount = -1 then player.loyalists else cmd.amount),
          order := some (some o) }) ∧
    (∀ e : MoveErr,
      moveResult (if cmd.amount = -1 then player.loyalists else cmd.amount) dest
        speed = .error e →
      (moveExecute cmd player regions speed moveResult).defectable
        = player.defectable ∧
      (moveExecute cmd player regions speed moveResult).commits = 0 ∧
      (moveExecute cmd player regions speed moveResult).order = none) := by
  refine ⟨?_, ?_, ?_⟩
  · intro h
    simp [moveExecute, hdest, h]
  · intro o h
    simp [moveExecute, hdest, h]
  · intro e h
    rcases e with ⟨req, avail⟩ | _ | ⟨o | c⟩ | _ <;>
      simp [moveExecute, hdest, h]

/-- C6 witness: a concrete zero-transit move (already arrived) and a
concrete insufficient-troops failure. -/
theorem move_success_and_failure_frame_witness :
    moveExecute ⟨-1, "r2".data⟩ ⟨100, true, "[cap]".data⟩
        [⟨"r2".data, "cbr2".data, "[r2]".data⟩] 60 (fun _ _ _ => .ok none) =
      { replies := [confirmedArrivedText
          (if (-1 : Int) = -1 then (100 : Int) else -1) "[r2]".data],
        defectable := false, commits := 1,
        attempted := some (if (-1 : Int) = -1 then (100 : Int) else -1),
        order := some none } ∧
    ((moveExecute ⟨-1, "r2".data⟩ ⟨100, true, "[cap]".data⟩
        [⟨"r2".data, "cbr2".data, "[r2]".data⟩] 60
        (fun _ _ _ => .error (.insufficient 200 100))).defectable = true ∧
      (moveExecute ⟨-1, "r2".data⟩ ⟨100, true, "[cap]".data⟩
        [⟨"r2".data, "cbr2".data, "[r2]".data⟩] 60
        (fun _ _ _ => .error (.insufficient 200 100))).commits = 0 ∧
      (moveExecute ⟨-1, "r2".data⟩ ⟨100, true, "[cap]".data⟩
        [⟨"r2".data, "cbr2".data, "[r2]".data⟩] 60
        (fun _ _ _ => .error (.insufficient 200 100))).order = none) := by
  constructor
  · exact (move_success_and_failure_frame ⟨-1, "r2".data⟩ ⟨100, true, "[cap]".data⟩
      [⟨"r2".data, "cbr2".data, "[r2]".data⟩] 60 (fun _ _ _ => .ok none)
      ⟨"r2".data, "cbr2".data, "[r2]".data⟩ rfl).1 rfl
  · exact (move_success_and_failure_frame ⟨-1, "r2".data⟩ ⟨100, true, "[cap]".data⟩
      [⟨"r2".data, "cbr2".data, "[r2]".data⟩] 60
      (fun _ _ _ => .error (.insufficient 200 100))
      ⟨"r2".data, "cbr2".data, "[r2]".data⟩ rfl).2.2 _ rfl

/-- C7: a move command without an explicit amount carries the sentinel `-1`,
and a sentinel amount is decoded, before the movement operation is invoked,
as the player's entire loyalist pool — the move is attempted with amount
equal to the player's loyalists at execution time. -/
theorem move_sentinel_amount (whereTok : List Char) (player : MPlayer)
    (regions : List RegionM) (speed : Nat)
    (moveResult : Int → RegionM → Nat → Except MoveErr (Option OrderM))
    (dest : RegionM)
    (hdest : get_region whereTok regions = some dest) :
    (MoveCmd.ofTokens none whereTok).amount = -1 ∧
    (MoveCmd.ofTokens none whereTok).whereTok = whereTok ∧
    (∀ cmd : MoveCmd, cmd.amount = -1 → cmd.whereTok = whereTok →
      (moveExecute cmd player regions speed moveResult).attempted
        = some player.loyalists) := by
  refine ⟨rfl, rfl, ?_⟩
  intro cmd h hw
  cases hmr : moveResult player.loyalists dest speed with
  | ok o => simp [moveExecute, hw, hdest, h, hmr]
  | error e =>
    rcases e with ⟨req, avail⟩ | _ | ⟨o | c⟩ | _ <;>
      simp [moveExecute, hw, hdest, h, hmr]

/-- C7 witness: a concrete amount-less move decodes to the player's 100
loyalists. -/
theorem move_sentinel_amount_witness :
    (MoveCmd.ofTokens none "r2".data).amount = -1 ∧
    (moveExecute (MoveCmd.ofTokens none "r2".data) ⟨100, true, "[cap]".data⟩
      [⟨"r2".data, "cbr2".data, "[r2]".data⟩] 60
      (fun _ _ _ => .ok none)).attempted = some 100 := by
  have h := move_sentinel_amount "r2".data ⟨100, true, "[cap]".data⟩
    [⟨"r2".data, "cbr2".data, "[r2]".data⟩] 60 (fun _ _ _ => .ok none)
    ⟨"r2".data, "cbr2".data, "[r2]".data⟩ rfl
  exact ⟨h.1, h.2.2 (MoveCmd.ofTokens none "r2".data) rfl rfl⟩

end Chromabot
